import Mathlib

/-!
Verification development for the bidfeed procurement pipeline: a shallow
embedding of the storage layer (announcements, downloads), the feed-entry
field derivation, the Thai numeral normalizer, the budget extraction over
document text, and the PDF document fetcher, together with theorems checking
the specification claims against these embeddings.
-/

namespace Bidfeed

/-- ASCII whitespace characters removed by the strip operation on strings:
space, tab, newline, vertical tab, form feed, carriage return. -/
def isSpaceChar (c : Char) : Bool :=
  c == ' ' || c == Char.ofNat 9 || c == Char.ofNat 10 || c == Char.ofNat 11 ||
    c == Char.ofNat 12 || c == Char.ofNat 13

/-- Embeds the strip method: remove leading and trailing whitespace. -/
def pyStrip (s : String) : String :=
  String.mk (((s.data.dropWhile isSpaceChar).reverse.dropWhile isSpaceChar).reverse)

/-- Embeds the split method with a one-character separator: cut the character
list at every occurrence of the separator.  The result has one (possibly
empty) segment more than the number of separator occurrences, so it is never
the empty list. -/
def pySplitChar (sep : Char) : List Char → List (List Char)
  | [] => [[]]
  | c :: rest =>
    if c == sep then [] :: pySplitChar sep rest
    else
      match pySplitChar sep rest with
      | [] => [[c]]
      | seg :: segs => (c :: seg) :: segs

/-- String-level wrapper of the split method. -/
def pySplit (sep : Char) (s : String) : List String :=
  (pySplitChar sep s.data).map String.mk

theorem pySplitChar_ne_nil (sep : Char) (l : List Char) : pySplitChar sep l ≠ [] := by
  cases l with
  | nil => simp [pySplitChar]
  | cons c rest =>
    simp only [pySplitChar]
    split
    · simp
    · split
      · simp
      · simp

theorem pySplitChar_singleton (sep : Char) (l seg : List Char)
    (h : pySplitChar sep l = [seg]) : seg = l := by
  induction l generalizing seg with
  | nil =>
    simp only [pySplitChar] at h
    injection h with h1 _
    exact h1.symm
  | cons c rest ih =>
    simp only [pySplitChar] at h
    by_cases hc : (c == sep) = true
    · rw [if_pos hc] at h
      injection h with h1 h2
      exact absurd h2 (pySplitChar_ne_nil sep rest)
    · rw [if_neg hc] at h
      rcases hrest : pySplitChar sep rest with _ | ⟨seg0, segs⟩
      · exact absurd hrest (pySplitChar_ne_nil sep rest)
      · rw [hrest] at h
        injection h with h1 h2
        subst h2
        have : seg0 = rest := ih seg0 hrest
        subst this
        exact h1.symm

/-- Embeds the derivation of the project and announcement-type fields inside
Database.insert_announcement: when the description is truthy (non-empty), it
is split on commas; the project id is the stripped first segment, and when
more than two segments exist the announcement type is the stripped third
segment.  An empty description leaves both fields absent. -/
def deriveFields (description : String) : Option String × Option String :=
  if description = "" then (none, none)
  else
    let parts := pySplit ',' description
    ((parts.head?).map pyStrip,
      if parts.length > 2 then (parts.get? 2).map pyStrip else none)

/-- The ten Thai digit glyphs, in value order, as in the translation table of
PDFExtractor. -/
def thaiDigits : List Char := ['๐', '๑', '๒', '๓', '๔', '๕', '๖', '๗', '๘', '๙']

/-- The ten ASCII digits, in value order. -/
def arabicDigits : List Char := ['0', '1', '2', '3', '4', '5', '6', '7', '8', '9']

/-- Embeds the character translation table built by str.maketrans over the two
digit alphabets: a Thai digit is replaced by the ASCII digit at the same
position, every other character is kept. -/
def thaiToArabic (c : Char) : Char :=
  match (thaiDigits.zip arabicDigits).find? (fun p => c == p.1) with
  | some p => p.2
  | none => c

/-- Embeds PDFExtractor.convert_thai_number: apply the translation table to
every character of the string. -/
def convert_thai_number (s : String) : String :=
  String.mk (s.data.map thaiToArabic)

theorem thaiToArabic_eq_self (c : Char) (h : c ∉ thaiDigits) : thaiToArabic c = c := by
  simp only [thaiDigits, List.mem_cons, List.not_mem_nil, or_false, not_or] at h
  obtain ⟨h0, h1, h2, h3, h4, h5, h6, h7, h8, h9⟩ := h
  simp [thaiToArabic, thaiDigits, arabicDigits, List.find?,
    beq_eq_false_iff_ne.mpr h0, beq_eq_false_iff_ne.mpr h1, beq_eq_false_iff_ne.mpr h2,
    beq_eq_false_iff_ne.mpr h3, beq_eq_false_iff_ne.mpr h4, beq_eq_false_iff_ne.mpr h5,
    beq_eq_false_iff_ne.mpr h6, beq_eq_false_iff_ne.mpr h7, beq_eq_false_iff_ne.mpr h8,
    beq_eq_false_iff_ne.mpr h9]

theorem thaiToArabic_idem (c : Char) : thaiToArabic (thaiToArabic c) = thaiToArabic c := by
  by_cases h : c ∈ thaiDigits
  · simp only [thaiDigits, List.mem_cons, List.not_mem_nil, or_false] at h
    rcases h with rfl | rfl | rfl | rfl | rfl | rfl | rfl | rfl | rfl | rfl <;> decide
  · rw [thaiToArabic_eq_self c h]
    exact thaiToArabic_eq_self c h

theorem convert_thai_number_idem (s : String) :
    convert_thai_number (convert_thai_number s) = convert_thai_number s := by
  have h : ∀ l : List Char, (l.map thaiToArabic).map thaiToArabic = l.map thaiToArabic := by
    intro l
    rw [List.map_map]
    exact List.map_congr_left (fun c _ => thaiToArabic_idem c)
  exact congrArg String.mk (h s.data)

/-- One row of the announcements table.  Timestamps are modelled as natural
numbers; CURRENT_TIMESTAMP is passed to each operation as an explicit
argument. -/
structure AnnouncementRow where
  id : Nat
  title : String
  link : String
  published_date : String
  description : String
  project_id : Option String
  dept_id : Option String
  announce_type : Option String
  created_at : Nat
  updated_at : Nat
deriving DecidableEq

/-- One row of the downloads table. -/
structure DownloadRow where
  id : Nat
  announcement_id : Nat
  file_path : String
  download_status : String
  download_date : Nat
deriving DecidableEq

/-- The visible state of the SQLite database: the two tables the claims are
about, as row lists in rowid order. -/
structure DBState where
  announcements : List AnnouncementRow
  downloads : List DownloadRow
deriving DecidableEq

/-- Largest rowid present in the announcements table (0 when empty): a fresh
SQLite rowid is one more than this. -/
def maxAnnId (rows : List AnnouncementRow) : Nat :=
  rows.foldr (fun r m => max r.id m) 0

/-- Largest rowid present in the downloads table (0 when empty). -/
def maxDlId (rows : List DownloadRow) : Nat :=
  rows.foldr (fun r m => max r.id m) 0

/-- Embeds Database.insert_announcement: derive project id and announcement
type from the description (defaulted to the empty string when absent), then
run INSERT OR REPLACE keyed by the unique link column.  SQLite REPLACE deletes
every row conflicting on link and then inserts a fresh row: the new row gets a
newly assigned rowid (largest remaining rowid plus one, since no id is
supplied), created_at is refilled from its column default CURRENT_TIMESTAMP,
and updated_at is set explicitly to CURRENT_TIMESTAMP.  Returns the new state
and lastrowid. -/
def insert_announcement (db : DBState) (title lk published_date : String)
    (description? : Option String) (dept_id : Option String) (now : Nat) :
    DBState × Nat :=
  let description := description?.getD ""
  let fields := deriveFields description
  let remaining := db.announcements.filter (fun r => !(r.link == lk))
  let newId := maxAnnId remaining + 1
  let row : AnnouncementRow :=
    { id := newId, title := title, link := lk, published_date := published_date,
      description := description, project_id := fields.1, dept_id := dept_id,
      announce_type := fields.2, created_at := now, updated_at := now }
  ({ db with announcements := remaining ++ [row] }, newId)

/-- Embeds Database.insert_download: append a new download row with a fresh
rowid and the current timestamp. -/
def insert_download (db : DBState) (announcement_id : Nat) (file_path : String)
    (status : String) (now : Nat) : DBState × Nat :=
  let newId := maxDlId db.downloads + 1
  ({ db with downloads := db.downloads ++
      [{ id := newId, announcement_id := announcement_id, file_path := file_path,
         download_status := status, download_date := now }] }, newId)

/-- Embeds Database.update_download_status: the UPDATE statement sets status
and download_date on every downloads row whose announcement_id matches. -/
def update_download_status (db : DBState) (announcement_id : Nat) (status : String)
    (now : Nat) : DBState :=
  { db with downloads := db.downloads.map (fun d =>
      if d.announcement_id = announcement_id then
        { d with download_status := status, download_date := now }
      else d) }

/-- Embeds Database.get_pending_downloads: the LEFT JOIN with WHERE d.id IS
NULL keeps exactly the announcements with no downloads row referencing them,
projected to (id, link). -/
def get_pending_downloads (db : DBState) : List (Nat × String) :=
  (db.announcements.filter
      (fun a => !(db.downloads.any (fun d => d.announcement_id == a.id)))).map
    (fun a => (a.id, a.link))

theorem filter_of_filter_not (l : List AnnouncementRow) (p : AnnouncementRow → Bool) :
    (l.filter (fun r => !(p r))).filter p = [] := by
  induction l with
  | nil => rfl
  | cons a t ih => by_cases h : p a <;> simp [h, ih]

theorem filter_not_idem (l : List AnnouncementRow) (p : AnnouncementRow → Bool) :
    (l.filter (fun r => !(p r))).filter (fun r => !(p r)) =
      l.filter (fun r => !(p r)) := by
  induction l with
  | nil => rfl
  | cons a t ih => by_cases h : p a <;> simp [h, ih]

/-- C6: the numeral normalizer sends each of the ten Thai digit glyphs to its
ASCII 0-9 counterpart, leaves every other character unchanged, and is
idempotent: normalizing any string twice equals normalizing it once. -/
theorem C6_normalizer_correct :
    thaiDigits.map thaiToArabic = arabicDigits ∧
    convert_thai_number (String.mk thaiDigits) = String.mk arabicDigits ∧
    (∀ c : Char, c ∉ thaiDigits → thaiToArabic c = c) ∧
    (∀ s : String, convert_thai_number (convert_thai_number s) = convert_thai_number s) := by
  exact ⟨by decide, by decide, thaiToArabic_eq_self, convert_thai_number_idem⟩

/-- Witness for C6 at concrete inputs. -/
theorem C6_normalizer_witness :
    thaiToArabic 'A' = 'A' ∧
    convert_thai_number (convert_thai_number "งบ ๑,๒๓๔ บาท") =
      convert_thai_number "งบ ๑,๒๓๔ บาท" :=
  ⟨C6_normalizer_correct.2.2.1 'A' (by decide),
    C6_normalizer_correct.2.2.2 (String.mk ['ง', 'บ', ' ', '๑', ',', '๒', '๓', '๔', ' ', 'บ', 'า', 'ท'])⟩

/-- C5: for a non-empty description, the derived project id is the stripped
first comma segment; the announcement type is the stripped third segment when
more than two segments exist and is absent otherwise; for a description with a
single comma segment the project id is the stripped whole description and the
announcement type is absent. -/
theorem C5_description_derivation (d : String) (h : d ≠ "") :
    (∀ first rest, pySplit ',' d = first :: rest →
        (deriveFields d).1 = some (pyStrip first)) ∧
    ((pySplit ',' d).length > 2 →
        (deriveFields d).2 = ((pySplit ',' d).get? 2).map pyStrip) ∧
    ((pySplit ',' d).length ≤ 2 → (deriveFields d).2 = none) ∧
    ((pySplit ',' d).length = 1 →
        (deriveFields d).1 = some (pyStrip d) ∧ (deriveFields d).2 = none) := by
  refine ⟨?_, ?_, ?_, ?_⟩
  · intro first rest hsplit
    simp only [deriveFields, if_neg h, hsplit, List.head?]
    rfl
  · intro hlen
    simp only [deriveFields, if_neg h, if_pos hlen]
  · intro hlen
    have hnot : ¬ (pySplit ',' d).length > 2 := by omega
    simp only [deriveFields, if_neg h, if_neg hnot]
  · intro hlen
    have hone : ∃ seg, pySplitChar ',' d.data = [seg] := by
      rcases hh : pySplitChar ',' d.data with _ | ⟨a, t⟩
      · exact absurd hh (pySplitChar_ne_nil _ _)
      · have : t.length = 0 := by
          have := hlen
          simp only [pySplit, hh, List.length_map, List.length_cons] at this
          omega
        rcases List.length_eq_zero.mp this with rfl
        exact ⟨a, rfl⟩
    obtain ⟨seg, hseg⟩ := hone
    have hseg_eq : seg = d.data := pySplitChar_singleton ',' d.data seg hseg
    subst hseg_eq
    have hsplit : pySplit ',' d = [String.mk d.data] := by
      simp [pySplit, hseg]
    have hstr : String.mk d.data = d := by
      cases d; rfl
    constructor
    · simp only [deriveFields, if_neg h, hsplit, List.head?, hstr]
      rfl
    · have hle : (pySplit ',' d).length ≤ 2 := by
        rw [hsplit]; simp
      have hnot : ¬ (pySplit ',' d).length > 2 := by omega
      simp only [deriveFields, if_neg h, if_neg hnot]

/-- Witness for C5 at a concrete three-segment description and a concrete
one-segment description. -/
theorem C5_description_witness :
    (deriveFields "67119457432, e-bidding, invite").2 =
      ((pySplit ',' "67119457432, e-bidding, invite").get? 2).map pyStrip ∧
    (deriveFields " 67119457432 ").1 = some (pyStrip " 67119457432 ") ∧
    (deriveFields " 67119457432 ").2 = none :=
  ⟨(C5_description_derivation "67119457432, e-bidding, invite" (by decide)).2.1 (by decide),
    (C5_description_derivation " 67119457432 " (by decide)).2.2.2 (by decide)⟩

/-- C10: ingesting an entry with an empty description leaves both derived
fields absent (none), not empty strings. -/
theorem C10_empty_description_absent :
    deriveFields "" = (none, none) ∧
    (deriveFields "").1 ≠ some "" ∧ (deriveFields "").2 ≠ some "" := by
  decide

/-- A minimal announcements row used by concrete database scenarios. -/
def sampleAnn (i : Nat) (lk : String) : AnnouncementRow :=
  { id := i, title := "t", link := lk, published_date := "2024-01-01",
    description := "", project_id := none, dept_id := none, announce_type := none,
    created_at := 0, updated_at := 0 }

/-- A minimal downloads row used by concrete database scenarios. -/
def sampleDl (i aid : Nat) (status : String) : DownloadRow :=
  { id := i, announcement_id := aid, file_path := "p", download_status := status,
    download_date := 0 }

/-- C1 amended: upserting by link leaves exactly one announcements row for
that link, carrying the new title, published date, description, derived
fields and department id, with updated_at refreshed; rows for other links are
untouched.  Because the upsert is INSERT OR REPLACE (delete then reinsert),
the surviving row is a fresh row: its id is newly assigned and its created_at
is refilled at the latest ingestion, so numeric identity and the creation
timestamp of the first ingestion are not preserved in general. -/
theorem C1_upsert_by_link (db : DBState) (title lk pd : String)
    (description? : Option String) (dept : Option String) (now : Nat) :
    ((insert_announcement db title lk pd description? dept now).1.announcements.filter
        (fun r => r.link == lk)) =
      [{ id := (insert_announcement db title lk pd description? dept now).2,
         title := title, link := lk, published_date := pd,
         description := description?.getD "",
         project_id := (deriveFields (description?.getD "")).1,
         dept_id := dept,
         announce_type := (deriveFields (description?.getD "")).2,
         created_at := now, updated_at := now }] ∧
    ((insert_announcement db title lk pd description? dept now).1.announcements.filter
        (fun r => !(r.link == lk))) =
      db.announcements.filter (fun r => !(r.link == lk)) := by
  constructor
  · simp only [insert_announcement, List.filter_append]
    rw [filter_of_filter_not]
    simp
  · simp only [insert_announcement, List.filter_append]
    rw [filter_not_idem]
    simp

/-- First ingestion of link L1 at time 1 into an empty database. -/
def c1Step1 : DBState × Nat :=
  insert_announcement { announcements := [], downloads := [] }
    "T1" "L1" "2024-01-01" (some "10, x, y") (some "0307") 1

/-- Ingestion of a second link L2 at time 2. -/
def c1Step2 : DBState × Nat :=
  insert_announcement c1Step1.1 "T2" "L2" "2024-01-02" (some "11, x, y") (some "0307") 2

/-- Re-ingestion of link L1 at time 3. -/
def c1Step3 : DBState × Nat :=
  insert_announcement c1Step2.1 "T1-new" "L1" "2024-01-03" (some "10, x, y") (some "0307") 3

/-- C1 counterexample: after ingesting L1 (row id 1, created_at 1), ingesting
L2, and re-ingesting L1 at time 3, exactly one row for L1 remains, but it has
id 3 and created_at 3: the id and created_at of the first ingestion are not
preserved, refuting the claim as stated. -/
theorem C1_counterexample :
    (c1Step1.1.announcements.map (fun r => (r.link, r.id, r.created_at)) =
      [("L1", 1, 1)]) ∧
    ((c1Step3.1.announcements.filter (fun r => r.link == "L1")).map
        (fun r => (r.link, r.id, r.created_at)) = [("L1", 3, 3)]) ∧
    ((c1Step3.1.announcements.filter (fun r => r.link == "L1")).length = 1) ∧
    ¬ (3 = 1) := by
  decide

/-- C4 amended: update-download-status sets the status and timestamp of every
downloads row of the given announcement (keeping their other fields) -- not
only the latest one -- and leaves rows of other announcements and the whole
announcements table unchanged. -/
theorem C4_update_status_all_rows (db : DBState) (aid : Nat) (status : String)
    (now : Nat) :
    (update_download_status db aid status now).announcements = db.announcements ∧
    (update_download_status db aid status now).downloads.length =
      db.downloads.length ∧
    ((update_download_status db aid status now).downloads.filter
        (fun d => !(d.announcement_id == aid))) =
      db.downloads.filter (fun d => !(d.announcement_id == aid)) ∧
    ((update_download_status db aid status now).downloads.filter
        (fun d => d.announcement_id == aid)) =
      (db.downloads.filter (fun d => d.announcement_id == aid)).map
        (fun d => { d with download_status := status, download_date := now }) := by
  refine ⟨rfl, by simp [update_download_status], ?_, ?_⟩
  · simp only [update_download_status]
    induction db.downloads with
    | nil => rfl
    | cons d t ih => by_cases h : d.announcement_id = aid <;> simp [h, ih]
  · simp only [update_download_status]
    induction db.downloads with
    | nil => rfl
    | cons d t ih => by_cases h : d.announcement_id = aid <;> simp [h, ih]

/-- C4 counterexample: with two downloads rows for announcement 1 (ids 1 and
2), updating the status changes the earlier row as well, not only the latest
row: the claim that all rows other than the latest stay unchanged is false. -/
theorem C4_counterexample :
    ((update_download_status
        { announcements := [sampleAnn 1 "L1"],
          downloads := [sampleDl 1 1 "started", sampleDl 2 1 "started"] }
        1 "completed" 9).downloads.get? 0 =
      some { id := 1, announcement_id := 1, file_path := "p",
             download_status := "completed", download_date := 9 }) ∧
    (sampleDl 1 1 "started").download_status = "started" ∧
    ¬ ("completed" = "started") := by
  decide

/-- C9: list-pending-downloads returns exactly the announcements that have
zero downloads rows: every returned pair comes from an announcement no
downloads row references (whatever its status), and every announcement with no
downloads row is returned. -/
theorem C9_pending_downloads_exact (db : DBState) :
    (∀ p ∈ get_pending_downloads db,
        ∃ a ∈ db.announcements, p = (a.id, a.link) ∧
          ∀ d ∈ db.downloads, d.announcement_id ≠ a.id) ∧
    (∀ a ∈ db.announcements, (∀ d ∈ db.downloads, d.announcement_id ≠ a.id) →
        (a.id, a.link) ∈ get_pending_downloads db) := by
  constructor
  · intro p hp
    simp only [get_pending_downloads, List.mem_map, List.mem_filter] at hp
    obtain ⟨a, ⟨ha, hnone⟩, rfl⟩ := hp
    refine ⟨a, ha, rfl, ?_⟩
    intro d hd
    simp only [Bool.not_eq_eq_eq_not, Bool.not_true, List.any_eq_false,
      beq_iff_eq] at hnone
    exact hnone d hd
  · intro a ha hno
    simp only [get_pending_downloads, List.mem_map, List.mem_filter]
    refine ⟨a, ⟨ha, ?_⟩, rfl⟩
    simp only [Bool.not_eq_eq_eq_not, Bool.not_true, List.any_eq_false, beq_iff_eq]
    exact hno

/-- Witness for C9 on a concrete database: announcement 2 has no downloads
row and is listed as pending, while announcement 1 has a failed downloads row
and every pending pair comes from a download-free announcement. -/
theorem C9_pending_downloads_witness :
    (2, "L2") ∈ get_pending_downloads
      { announcements := [sampleAnn 1 "L1", sampleAnn 2 "L2"],
        downloads := [sampleDl 1 1 "failed"] } :=
  (C9_pending_downloads_exact
      { announcements := [sampleAnn 1 "L1", sampleAnn 2 "L2"],
        downloads := [sampleDl 1 1 "failed"] }).2
    (sampleAnn 2 "L2") (by decide) (by decide)

/-- Characters matched by the decimal-digit class of the budget pattern, over
the alphabets occurring in this feed: ASCII digits and Thai digit glyphs. -/
def isREDigit (c : Char) : Bool :=
  c.isDigit || (3664 ≤ c.toNat && c.toNat ≤ 3673)

/-- Characters matched by the whitespace class of the pattern. -/
def isRESpace (c : Char) : Bool := isSpaceChar c

/-- Characters matched by the bracket class of digits and comma. -/
def isDigitOrComma (c : Char) : Bool := isREDigit c || c == ','

/-- Candidate consumption lengths for a greedy star over a character class at
the front of a list: the maximal run length first, backtracking down to 0. -/
def starCandidates (p : Char → Bool) (l : List Char) : List Nat :=
  (List.range ((l.takeWhile p).length + 1)).reverse

/-- Candidate consumption lengths for a greedy plus: the maximal run length
first, backtracking down to 1; empty when no character matches. -/
def plusCandidates (p : Char → Bool) (l : List Char) : List Nat :=
  ((List.range ((l.takeWhile p).length)).reverse).map (fun n => n + 1)

/-- First successful alternative, in backtracking order. -/
def firstSome (xs : List Nat) (f : Nat → Option (List Char)) : Option (List Char) :=
  match xs with
  | [] => none
  | x :: rest =>
    match f x with
    | some r => some r
    | none => firstSome rest f

/-- The currency word following the captured amount. -/
def bahtChars : List Char := ['บ', 'า', 'ท']

/-- After the capture group the pattern requires optional whitespace and then
the currency word: a greedy whitespace star with backtracking, then the
literal. -/
def suffixMatches (l : List Char) : Bool :=
  (starCandidates isRESpace l).any (fun ns => bahtChars.isPrefixOf (l.drop ns))

/-- Attempt the budget pattern at the current position, in regex backtracking
order: the capture group is a greedy digits-or-commas run, then an optional
dot, then a greedy digit run; on success return the characters consumed by the
capture group. -/
def matchBudgetAt (l : List Char) : Option (List Char) :=
  firstSome (plusCandidates isDigitOrComma l) (fun na =>
    let l1 := l.drop na
    let dotCandidates := if l1.head? = some '.' then [1, 0] else [0]
    firstSome dotCandidates (fun nd =>
      let l2 := l1.drop nd
      firstSome (starCandidates isREDigit l2) (fun nb =>
        if suffixMatches (l2.drop nb) then some (l.take (na + nd + nb)) else none)))

/-- Embeds re.search for the budget pattern: try the pattern at each position
left to right; the first matching position wins. -/
def searchBudget : List Char → Option (List Char)
  | [] =>
    match matchBudgetAt [] with
    | some g => some g
    | none => none
  | c :: rest =>
    match matchBudgetAt (c :: rest) with
    | some g => some g
    | none => searchBudget rest

/-- Result shape of PDFExtractor.extract_budget. -/
structure BudgetResult where
  amount : String
  amount_clean : String
deriving DecidableEq

/-- Embeds PDFExtractor.extract_budget: search the text for the budget
pattern; on a match return the raw captured numeral string together with the
variant with every comma removed; otherwise return none. -/
def extract_budget (text : String) : Option BudgetResult :=
  match searchBudget text.data with
  | some g =>
    some { amount := String.mk g,
           amount_clean := String.mk (g.filter (fun c => !(c == ','))) }
  | none => none

/-- C7: whenever the budget pattern matches the text, extraction returns the
raw captured numeral string and the comma-stripped clean variant of that same
string; when the pattern does not match it returns none; on a concrete text
containing 1,234,567.50 followed by the currency word it yields raw
1,234,567.50 and clean 1234567.50. -/
theorem C7_budget_extraction :
    (∀ t : String, ∀ g, searchBudget t.data = some g →
        extract_budget t =
          some { amount := String.mk g,
                 amount_clean := String.mk (g.filter (fun c => !(c == ','))) }) ∧
    (∀ t : String, searchBudget t.data = none → extract_budget t = none) ∧
    extract_budget "ราคากลาง 1,234,567.50 บาท" =
      some { amount := "1,234,567.50", amount_clean := "1234567.50" } := by
  refine ⟨?_, ?_, by decide⟩
  · intro t g hg
    simp [extract_budget, hg]
  · intro t hg
    simp [extract_budget, hg]

/-- Witness for C7 at a concrete matching text. -/
theorem C7_budget_witness :
    extract_budget "3 บาท" =
      some { amount := String.mk ['3'],
             amount_clean := String.mk (['3'].filter (fun c => !(c == ','))) } :=
  C7_budget_extraction.1 "3 บาท" ['3'] (by decide)

/-- The on-disk state relevant to the document fetcher: the files under the
output directory, as an association list from path to byte contents. -/
structure FS where
  files : List (String × List Nat)
deriving DecidableEq

/-- Path existence check. -/
def fsExists (fs : FS) (path : String) : Bool :=
  fs.files.any (fun p => p.1 == path)

/-- Create or overwrite a file. -/
def fsWrite (fs : FS) (path : String) (contents : List Nat) : FS :=
  { files := (fs.files.filter (fun p => !(p.1 == path))) ++ [(path, contents)] }

/-- Delete a file. -/
def fsRemove (fs : FS) (path : String) : FS :=
  { files := fs.files.filter (fun p => !(p.1 == path)) }

theorem fsExists_fsRemove (fs : FS) (path : String) :
    fsExists (fsRemove fs path) path = false := by
  simp only [fsExists, fsRemove]
  induction fs.files with
  | nil => rfl
  | cons p t ih => by_cases h : (p.1 == path) = true <;> simp_all

theorem fsExists_fsWrite (fs : FS) (path : String) (contents : List Nat) :
    fsExists (fsWrite fs path contents) path = true := by
  simp [fsExists, fsWrite]

/-- Value of a hexadecimal digit character, if any. -/
def hexVal (c : Char) : Option Nat :=
  if 48 ≤ c.toNat ∧ c.toNat ≤ 57 then some (c.toNat - 48)
  else if 97 ≤ c.toNat ∧ c.toNat ≤ 102 then some (c.toNat - 87)
  else if 65 ≤ c.toNat ∧ c.toNat ≤ 70 then some (c.toNat - 55)
  else none

/-- Embeds the percent-decoding applied to the URL's last segment, restricted
to single-byte code points: a percent escape of two hex digits becomes the
character with that code, other characters pass through.  (Multi-byte UTF-8
percent sequences do not arise in this feed's URLs and are not modelled.) -/
def unquoteChars : List Char → List Char
  | [] => []
  | '%' :: a :: b :: rest =>
    (match hexVal a, hexVal b with
     | some ha, some hb => Char.ofNat (16 * ha + hb) :: unquoteChars rest
     | _, _ => '%' :: unquoteChars (a :: b :: rest))
  | c :: rest => c :: unquoteChars rest

/-- The document file suffix recognized by the filename fallback. -/
def pdfSuffix : List Char := ['.', 'p', 'd', 'f']

/-- Characters replaced by an underscore when sanitizing a filename. -/
def isIllegalFilenameChar (c : Char) : Bool :=
  c == '<' || c == '>' || c == ':' || c == Char.ofNat 34 || c == '/' ||
    c == Char.ofNat 92 || c == '|' || c == '?' || c == '*'

/-- Embeds the filename derivation of PDFDownloader.download_pdf: the URL's
last slash segment, percent-decoded; when it does not end in .pdf the fallback
name project_id.pdf is used; finally illegal filename characters become
underscores. -/
def deriveFilename (url project_id : String) : String :=
  let rawSegment := (pySplitChar '/' url.data).getLastD []
  let decoded := unquoteChars rawSegment
  let base :=
    if pdfSuffix.isSuffixOf decoded then decoded
    else project_id.data ++ pdfSuffix
  String.mk (base.map (fun c => if isIllegalFilenameChar c then '_' else c))

/-- Destination path of a fetched document: output directory, project
subdirectory, derived filename. -/
def destPath (output_dir url project_id : String) : String :=
  output_dir ++ "/" ++ project_id ++ "/" ++ deriveFilename url project_id

/-- Transport outcome for a URL, as visible to download_pdf: a complete
response with status code and body; a transport error raised before the
output file is opened; or a transport error raised while streaming, after
some bytes were already written to the file. -/
inductive Response where
  | ok (status : Nat) (body : List Nat)
  | errBeforeOpen
  | errMidStream (written : List Nat)
deriving DecidableEq

/-- The four magic bytes of a PDF document. -/
def pdfMagic : List Nat := [37, 80, 68, 70]

/-- Result of one download_pdf call: the file system afterwards, the returned
path (none on failure) and whether a transport request was performed. -/
structure DownloadResult where
  fs : FS
  result : Option String
  fetched : Bool
deriving DecidableEq

/-- Embeds PDFDownloader.download_pdf over an abstract transport environment
mapping each URL to its outcome.  An existing destination file is returned
immediately with no transport request.  Otherwise the response is fetched: a
non-200 status fails before the file is created; the body is streamed to the
file and validated, deleting the file and failing when it is empty or its
first four bytes are not the PDF magic; an exception during streaming is
caught and fails, leaving the bytes already written on disk. -/
def download_pdf (env : String → Response) (output_dir : String) (fs : FS)
    (url project_id : String) : DownloadResult :=
  let filepath := destPath output_dir url project_id
  if fsExists fs filepath then
    { fs := fs, result := some filepath, fetched := false }
  else
    match env url with
    | Response.errBeforeOpen => { fs := fs, result := none, fetched := true }
    | Response.errMidStream written =>
      { fs := fsWrite fs filepath written, result := none, fetched := true }
    | Response.ok status body =>
      if status ≠ 200 then { fs := fs, result := none, fetched := true }
      else
        let fs1 := fsWrite fs filepath body
        if body.length > 0 then
          if body.take 4 = pdfMagic then
            { fs := fs1, result := some filepath, fetched := true }
          else
            { fs := fsRemove fs1 filepath, result := none, fetched := true }
        else
          { fs := fsRemove fs1 filepath, result := none, fetched := true }

/-- One record of the batch result. -/
structure BatchRecord where
  project_id : String
  url : String
  filepath : Option String
  success : Bool
deriving DecidableEq

/-- An announcement dictionary as consumed by download_batch: the project id
defaults to unknown when absent; the link may be absent. -/
structure AnnouncementInput where
  project_id : Option String
  link : Option String
deriving DecidableEq

/-- Embeds PDFDownloader.download_batch: fetch each announcement in order,
threading the file system; an announcement with a missing or empty link is
skipped (continue); every fetched announcement appends a record with the
returned path and a success flag. -/
def download_batch (env : String → Response) (output_dir : String) (fs : FS) :
    List AnnouncementInput → FS × List BatchRecord
  | [] => (fs, [])
  | a :: rest =>
    let pid := a.project_id.getD "unknown"
    match a.link with
    | none => download_batch env output_dir fs rest
    | some url =>
      if url = "" then download_batch env output_dir fs rest
      else
        let r := download_pdf env output_dir fs url pid
        let tail := download_batch env output_dir r.fs rest
        (tail.1, { project_id := pid, url := url, filepath := r.result,
                   success := r.result.isSome } :: tail.2)

/-- C2 counterexample: a transport error raised during streaming, after one
byte was written, makes the fetch return failure while the partial file stays
on disk -- refuting the claim that every failure leaves no partial file. -/
theorem C2_counterexample :
    ((download_pdf (fun _ => Response.errMidStream [37]) "data/project_docs"
        { files := [] } "http://host/doc.pdf" "p1").result = none) ∧
    fsExists (download_pdf (fun _ => Response.errMidStream [37]) "data/project_docs"
        { files := [] } "http://host/doc.pdf" "p1").fs
      (destPath "data/project_docs" "http://host/doc.pdf" "p1") = true := by
  decide

/-- C2 amended: when no file for the URL exists beforehand, every validation
failure returns failure and leaves no file on disk: a non-200 status or a
transport error before the file is opened never creates the file, and a 200
response whose body is empty or does not start with the PDF magic bytes has
its file deleted.  A transport error during streaming also returns failure but
may leave a partial file on disk. -/
theorem C2_validation_no_file (env : String → Response) (outdir url pid : String)
    (fs : FS) (h : fsExists fs (destPath outdir url pid) = false) :
    (∀ s body, env url = Response.ok s body → s ≠ 200 →
        (download_pdf env outdir fs url pid).result = none ∧
        fsExists (download_pdf env outdir fs url pid).fs
          (destPath outdir url pid) = false) ∧
    (∀ body, env url = Response.ok 200 body →
        body.length = 0 ∨ body.take 4 ≠ pdfMagic →
        (download_pdf env outdir fs url pid).result = none ∧
        fsExists (download_pdf env outdir fs url pid).fs
          (destPath outdir url pid) = false) ∧
    (env url = Response.errBeforeOpen →
        (download_pdf env outdir fs url pid).result = none ∧
        fsExists (download_pdf env outdir fs url pid).fs
          (destPath outdir url pid) = false) ∧
    (∀ written, env url = Response.errMidStream written →
        (download_pdf env outdir fs url pid).result = none) := by
  refine ⟨?_, ?_, ?_, ?_⟩
  · intro s body henv hs
    simp [download_pdf, h, henv, hs]
  · intro body henv hbad
    by_cases hlen : body.length > 0
    · have hmagic : body.take 4 ≠ pdfMagic := by
        rcases hbad with h0 | h0
        · omega
        · exact h0
      simp [download_pdf, h, henv, hlen, hmagic, fsExists_fsRemove]
    · simp [download_pdf, h, henv, hlen, fsExists_fsRemove]
  · intro henv
    simp [download_pdf, h, henv]
  · intro written henv
    simp [download_pdf, h, henv]

/-- Witness for C2 at a concrete 200 response with wrong magic bytes: failure
and no file on disk. -/
theorem C2_validation_witness :
    (download_pdf (fun _ => Response.ok 200 [1, 2, 3]) "data/project_docs"
        { files := [] } "http://host/doc.pdf" "p1").result = none ∧
    fsExists (download_pdf (fun _ => Response.ok 200 [1, 2, 3]) "data/project_docs"
        { files := [] } "http://host/doc.pdf" "p1").fs
      (destPath "data/project_docs" "http://host/doc.pdf" "p1") = false :=
  (C2_validation_no_file (fun _ => Response.ok 200 [1, 2, 3]) "data/project_docs"
      "http://host/doc.pdf" "p1" { files := [] } (by decide)).2.1
    [1, 2, 3] rfl (Or.inr (by decide))

/-- Transport environment that always answers 404. -/
def c8env : String → Response := fun _ => Response.ok 404 []

/-- A first fetch against the always-404 transport. -/
def c8first : DownloadResult :=
  download_pdf c8env "data/project_docs" { files := [] } "http://host/doc.pdf" "p1"

/-- C8 counterexample: when the transport always answers 404, two fetch calls
with the same URL and project id each perform a transport request (two network
fetches, not exactly one), refuting the unconditional two-call claim. -/
theorem C8_counterexample :
    c8first.fetched = true ∧
    (download_pdf c8env "data/project_docs" c8first.fs
        "http://host/doc.pdf" "p1").fetched = true := by
  decide

/-- C8 amended: when the destination file already exists the fetch returns its
path immediately, with no transport request and an unchanged file system.
Consequently, whenever a first call succeeds, a second call with the same URL
and project id performs no transport request and returns the same path: two
calls whose first succeeds perform exactly one network fetch. -/
theorem C8_cache_idempotent (env : String → Response) (outdir url pid : String)
    (fs : FS) :
    (fsExists fs (destPath outdir url pid) = true →
        download_pdf env outdir fs url pid =
          { fs := fs, result := some (destPath outdir url pid), fetched := false }) ∧
    (∀ p, (download_pdf env outdir fs url pid).result = some p →
        p = destPath outdir url pid ∧
        download_pdf env outdir (download_pdf env outdir fs url pid).fs url pid =
          { fs := (download_pdf env outdir fs url pid).fs,
            result := some p, fetched := false }) := by
  constructor
  · intro hex
    simp [download_pdf, hex]
  · intro p hp
    by_cases hex : fsExists fs (destPath outdir url pid) = true
    · have hres := hp
      simp only [download_pdf, hex, if_true] at hres
      simp only [download_pdf, hex, if_true]
      injection hres with hres
      subst hres
      exact ⟨rfl, by simp [download_pdf, hex]⟩
    · have hex' : fsExists fs (destPath outdir url pid) = false :=
        Bool.not_eq_true _ ▸ Bool.eq_false_iff.mpr hex
      rcases henv : env url with ⟨s, body⟩ | _ | written
      · by_cases hs : s = 200
        · subst hs
          by_cases hlen : body.length > 0
          · by_cases hmagic : body.take 4 = pdfMagic
            · have hres := hp
              simp only [download_pdf, hex', henv] at hres ⊢
              simp only [ne_eq, not_true_eq_false, if_false, hlen, if_true,
                hmagic] at hres ⊢
              simp at hres
              subst hres
              refine ⟨rfl, ?_⟩
              simp [download_pdf, fsExists_fsWrite]
            · exfalso
              have hres := hp
              simp [download_pdf, hex', henv, hlen, hmagic] at hres
          · exfalso
            have hres := hp
            simp [download_pdf, hex', henv, hlen] at hres
        · exfalso
          have hres := hp
          simp [download_pdf, hex', henv, hs] at hres
      · exfalso
        have hres := hp
        simp [download_pdf, hex', henv] at hres
      · exfalso
        have hres := hp
        simp [download_pdf, hex', henv] at hres

/-- Witness for C8: a successful first fetch (valid PDF body) followed by a
second call that performs no transport request and returns the same path. -/
theorem C8_cache_witness :
    "data/project_docs/p1/doc.pdf" =
      destPath "data/project_docs" "http://host/doc.pdf" "p1" ∧
    download_pdf (fun _ => Response.ok 200 [37, 80, 68, 70, 49]) "data/project_docs"
        (download_pdf (fun _ => Response.ok 200 [37, 80, 68, 70, 49])
          "data/project_docs" { files := [] } "http://host/doc.pdf" "p1").fs
        "http://host/doc.pdf" "p1" =
      { fs := (download_pdf (fun _ => Response.ok 200 [37, 80, 68, 70, 49])
          "data/project_docs" { files := [] } "http://host/doc.pdf" "p1").fs,
        result := some "data/project_docs/p1/doc.pdf", fetched := false } :=
  (C8_cache_idempotent (fun _ => Response.ok 200 [37, 80, 68, 70, 49])
      "data/project_docs" "http://host/doc.pdf" "p1" { files := [] }).2
    "data/project_docs/p1/doc.pdf" (by decide)

/-- Transport for the forced-failure batch scenario: the middle URL suffers a
transport failure, every other URL answers a valid PDF. -/
def c3env : String → Response := fun u =>
  if u == "http://host/b.pdf" then Response.errBeforeOpen
  else Response.ok 200 [37, 80, 68, 70, 49]

/-- Three announcements with distinct links for the batch scenario. -/
def c3anns : List AnnouncementInput :=
  [{ project_id := some "pa", link := some "http://host/a.pdf" },
   { project_id := some "pb", link := some "http://host/b.pdf" },
   { project_id := some "pc", link := some "http://host/c.pdf" }]

/-- C3 counterexample: a batch over one announcement whose link is absent
yields zero records, not one record per input announcement -- such inputs are
skipped, refuting the claim for arbitrary announcement sequences. -/
theorem C3_counterexample :
    (download_batch (fun _ => Response.ok 404 []) "data/project_docs"
        { files := [] } [{ project_id := some "p1", link := none }]).2 = [] ∧
    ¬ (([] : List BatchRecord).length = 1) := by
  decide

/-- C3 amended: over announcements that all carry a present, non-empty link,
the batch returns exactly one record per input, in input order, carrying that
input's project id (defaulted to unknown when absent) and url, with success
exactly when a path was produced; announcements with an absent or empty link
are skipped instead of producing a record.  One failure does not abort the
batch: in the concrete three-element batch whose middle URL suffers a forced
transport failure, three records come back in input order with exactly one
success equal to false. -/
theorem C3_batch_shape (env : String → Response) (outdir : String) (fs : FS)
    (anns : List AnnouncementInput)
    (h : ∀ a ∈ anns, a.link ≠ none ∧ a.link ≠ some "") :
    ((download_batch env outdir fs anns).2.length = anns.length) ∧
    ((download_batch env outdir fs anns).2.map
        (fun r => (r.project_id, some r.url)) =
      anns.map (fun a => (a.project_id.getD "unknown", a.link))) ∧
    (∀ r ∈ (download_batch env outdir fs anns).2, r.success = r.filepath.isSome) ∧
    ((download_batch c3env "data/project_docs" { files := [] } c3anns).2.map
        (fun r => r.success) = [true, false, true]) := by
  refine ⟨?_, ?_, ?_, by decide⟩
  · induction anns generalizing fs with
    | nil => rfl
    | cons a rest ih =>
      rcases ha : a.link with _ | u
      · exact absurd ha (h a (List.mem_cons_self a rest)).1
      · have hu : u ≠ "" := by
          intro hu0
          exact (h a (List.mem_cons_self a rest)).2 (hu0 ▸ ha)
        have hrest : ∀ b ∈ rest, b.link ≠ none ∧ b.link ≠ some "" :=
          fun b hb => h b (List.mem_cons_of_mem a hb)
        simp only [download_batch, ha, if_neg hu, List.length_cons]
        exact congrArg Nat.succ (ih _ hrest)
  · induction anns generalizing fs with
    | nil => rfl
    | cons a rest ih =>
      rcases ha : a.link with _ | u
      · exact absurd ha (h a (List.mem_cons_self a rest)).1
      · have hu : u ≠ "" := by
          intro hu0
          exact (h a (List.mem_cons_self a rest)).2 (hu0 ▸ ha)
        have hrest : ∀ b ∈ rest, b.link ≠ none ∧ b.link ≠ some "" :=
          fun b hb => h b (List.mem_cons_of_mem a hb)
        simp only [download_batch, ha, if_neg hu, List.map_cons]
        exact congrArg _ (ih _ hrest)
  · induction anns generalizing fs with
    | nil => intro r hr; exact absurd hr (List.not_mem_nil r)
    | cons a rest ih =>
      intro r hr
      rcases ha : a.link with _ | u
      · have hrest : ∀ b ∈ rest, b.link ≠ none ∧ b.link ≠ some "" :=
          fun b hb => h b (List.mem_cons_of_mem a hb)
        simp only [download_batch, ha] at hr
        exact ih _ hrest r hr
      · have hu : u ≠ "" := by
          intro hu0
          exact (h a (List.mem_cons_self a rest)).2 (hu0 ▸ ha)
        have hrest : ∀ b ∈ rest, b.link ≠ none ∧ b.link ≠ some "" :=
          fun b hb => h b (List.mem_cons_of_mem a hb)
        simp only [download_batch, ha, if_neg hu, List.mem_cons] at hr
        rcases hr with rfl | hr
        · rfl
        · exact ih _ hrest r hr

/-- Witness for C3: the concrete three-element batch has three records, one
per input, in input order. -/
theorem C3_batch_witness :
    (download_batch c3env "data/project_docs" { files := [] } c3anns).2.length =
      c3anns.length :=
  (C3_batch_shape c3env "data/project_docs" { files := [] } c3anns (by decide)).1

end Bidfeed
